import Mathlib

/-!
Shallow embedding of the value-investing screener (src/App.py) in Lean 4.

Python floats are modelled by rationals (ℚ); a value that may be absent is an
`Option`.  Raw fundamental attributes come from a loosely typed dictionary, so
an attribute value is modelled by `RawVal`: either a genuine Python number or a
non-numeric object (for which `float(...)` and arithmetic raise, and whose
truthiness is an arbitrary bit).  A Python function that may raise an uncaught
exception is modelled as returning `Option` (`none` = the call raised).
-/

namespace Screener

/-- A value stored in the raw-fundamentals dictionary: a number, or a
non-numeric object carrying only its Python truthiness.  (Numeric strings,
which `float` would convert but arithmetic would reject, are not modelled;
no claim depends on them.) -/
inductive RawVal where
  | num (q : ℚ)
  | other (truthy : Bool)
  deriving Repr, DecidableEq

/-- `float(v)`: converts a number, raises (`none`) on a non-numeric object. -/
def RawVal.toFloat : RawVal → Option ℚ
  | .num q => some q
  | .other _ => none

/-- Python truthiness of a raw value: a number is truthy iff nonzero. -/
def RawVal.truthy : RawVal → Bool
  | .num q => decide (q ≠ 0)
  | .other b => b

/-- Python truthiness of a possibly-absent value (`None` is falsy). -/
def pyTruthy : Option RawVal → Bool
  | none => false
  | some v => v.truthy

/-- The raw-fundamentals mapping for one ticker (`tk.info`), restricted to the
keys `compute_metrics` reads; any key may be absent (`dict.get` → `None`). -/
structure RawFundamentals where
  trailingPE : Option RawVal := none
  priceToBook : Option RawVal := none
  debtToEquity : Option RawVal := none
  dividendYield : Option RawVal := none
  freeCashflow : Option RawVal := none
  marketCap : Option RawVal := none
  trailingEps : Option RawVal := none
  sector : Option String := none
  industry : Option String := none
  deriving Repr, DecidableEq

/-- The dict returned by `fetch_yf_info`: `{'raw': ..., 'price': ...}`. -/
structure Info where
  raw : RawFundamentals := {}
  price : Option ℚ := none
  deriving Repr, DecidableEq

/-- One result row, as the dict built by `compute_metrics` (keys in source
order).  `pe`, `pb`, `freeCashflow`, `marketCap` are copied verbatim from the
raw mapping, so they may still hold a non-numeric object; every derived field
is a number or `none` ("unknown"). -/
structure MetricRow where
  ticker : String
  price : Option ℚ := none
  pe : Option RawVal := none
  pb : Option RawVal := none
  debtEquity : Option ℚ := none
  divYieldPct : Option ℚ := none
  freeCashflow : Option RawVal := none
  marketCap : Option RawVal := none
  fcfYieldPct : Option ℚ := none
  grahamValue : Option ℚ := none
  marginOfSafetyPct : Option ℚ := none
  sector : Option String := none
  industry : Option String := none
  deriving Repr, DecidableEq

/-- Lines 61-67: `dte = ri.get('debtToEquity'); if dte is not None: dte =
float(dte)` inside `try/except`; a conversion error yields `None`. -/
def debtToEquityField (dte : Option RawVal) : Option ℚ :=
  dte.bind RawVal.toFloat

/-- Lines 68-69: `dy = ri.get('dividendYield'); r[...] = None if dy is None
else float(dy) * 100`.  The conversion is NOT inside any `try`, so a
non-convertible value raises out of `compute_metrics`: the outer `Option`
is `none` exactly in that case, the inner `Option` is the field value. -/
def dividendYieldField (dy : Option RawVal) : Option (Option ℚ) :=
  match dy with
  | none => some none
  | some v =>
    match v.toFloat with
    | some q => some (some (q * 100))
    | none => none

/-- Lines 74-80: `try: if fcf is not None and mcap: r['FCF Yield (%)'] =
float(fcf)/float(mcap)*100 else: None except: None`. -/
def fcfYieldField (fcf mcap : Option RawVal) : Option ℚ :=
  if fcf.isSome ∧ pyTruthy mcap then
    match fcf.bind RawVal.toFloat, mcap.bind RawVal.toFloat with
    | some fq, some mq => some (fq / mq * 100)
    | _, _ => none
  else none

/-- Lines 81-96: the Graham-value `try` block.  Returns the pair
(`Graham Value (est. USD)`, `Margin of Safety (%)`).  The guard is
`eps is not None and aaa_rate and aaa_rate > 0`; a `TypeError` from
`eps * ...` on a non-numeric eps lands in the `except`, which sets both
fields to `None`. -/
def grahamFields (eps : Option RawVal) (price : Option ℚ)
    (est_growth aaa_rate : ℚ) : Option ℚ × Option ℚ :=
  match eps with
  | none => (none, none)
  | some e =>
    if aaa_rate ≠ 0 ∧ aaa_rate > 0 then
      match e with
      | .other _ => (none, none)
      | .num eq =>
        let graham := eq * (8.5 + 2 * (est_growth / 100)) * 4.4 / (aaa_rate / 100)
        let mos : Option ℚ :=
          match price with
          | some p => if p ≠ 0 ∧ graham ≠ 0 then some ((graham - p) / graham * 100) else none
          | none => none
        (some graham, mos)
    else (none, none)

/-- Lines 54-99: `compute_metrics(ticker, info_raw, price, est_growth,
aaa_rate)`.  Result `none` means the call raised an uncaught exception
(possible only in the dividend-yield conversion, line 69). -/
def compute_metrics (ticker : String) (info_raw : Info) (price : Option ℚ)
    (est_growth aaa_rate : ℚ) : Option MetricRow :=
  match dividendYieldField info_raw.raw.dividendYield with
  | none => none
  | some dy =>
    some { ticker := ticker
           price := price
           pe := info_raw.raw.trailingPE
           pb := info_raw.raw.priceToBook
           debtEquity := debtToEquityField info_raw.raw.debtToEquity
           divYieldPct := dy
           freeCashflow := info_raw.raw.freeCashflow
           marketCap := info_raw.raw.marketCap
           fcfYieldPct := fcfYieldField info_raw.raw.freeCashflow info_raw.raw.marketCap
           grahamValue := (grahamFields info_raw.raw.trailingEps price est_growth aaa_rate).1
           marginOfSafetyPct := (grahamFields info_raw.raw.trailingEps price est_growth aaa_rate).2
           sector := info_raw.raw.sector
           industry := info_raw.raw.industry }

/-- User-supplied screener settings (sidebar): ticker list, six thresholds,
two Graham parameters.  `st.number_input` always returns a float, so no
threshold is ever `None` and every `if <threshold> is not None:` guard in the
mask block is taken. -/
structure ScreenerConfig where
  tickers : List String := []
  pe_max : ℚ := 15
  pb_max : ℚ := 3
  de_max : ℚ := 100
  div_yield_min : ℚ := 0
  fcf_yield_min : ℚ := 0
  min_mos : ℚ := 20
  est_growth : ℚ := 5
  aaa_rate : ℚ := 4
  deriving Repr, DecidableEq

/-- An extended float value, as produced by `fillna(±np.inf)`: finite, `+∞`
or `-∞` (NaN never arises here: columns hold numbers or `None`). -/
inductive XFloat where
  | fin (q : ℚ)
  | pinf
  | ninf
  deriving Repr, DecidableEq

/-- IEEE ordering on the extended values used by the mask comparisons. -/
def XFloat.le : XFloat → XFloat → Bool
  | .ninf, _ => true
  | _, .pinf => true
  | .pinf, .fin _ => false
  | .pinf, .ninf => false
  | .fin _, .ninf => false
  | .fin a, .fin b => decide (a ≤ b)

/-- `series.fillna(d)` on an all-numeric column entry. -/
def fillna (v : Option ℚ) (d : XFloat) : XFloat :=
  match v with
  | none => d
  | some q => .fin q

/-- `col.fillna(np.inf) <= t` for a column that may hold non-numeric objects
(`P/E`, `P/B` are copied verbatim): comparing a non-numeric object raises a
`TypeError` (`none`). -/
def maskLeRaw (v : Option RawVal) (t : ℚ) : Option Bool :=
  match v with
  | none => some (XFloat.le .pinf (.fin t))
  | some (.num q) => some (XFloat.le (.fin q) (.fin t))
  | some (.other _) => none

/-- `col.fillna(np.inf) <= t` on an all-numeric column entry. -/
def maskLe (v : Option ℚ) (t : ℚ) : Bool :=
  XFloat.le (fillna v .pinf) (.fin t)

/-- `col.fillna(-np.inf) >= t` on an all-numeric column entry. -/
def maskGe (v : Option ℚ) (t : ℚ) : Bool :=
  XFloat.le (.fin t) (fillna v .ninf)

/-- Lines 121-133: one row's entry of the boolean mask — starts `True`, then
conjoins the six clauses in source order.  `none` = the pandas comparison
raised on a non-numeric `P/E` or `P/B` entry. -/
def rowMask (cfg : ScreenerConfig) (r : MetricRow) : Option Bool :=
  match maskLeRaw r.pe cfg.pe_max, maskLeRaw r.pb cfg.pb_max with
  | some bpe, some bpb =>
    some (true && bpe && bpb
      && maskLe r.debtEquity cfg.de_max
      && maskGe r.divYieldPct cfg.div_yield_min
      && maskGe r.fcfYieldPct cfg.fcf_yield_min
      && maskGe r.marginOfSafetyPct cfg.min_mos)
  | _, _ => none

/-- The whole mask series, one boolean per row (`none` if any comparison
raised). -/
def buildMask (cfg : ScreenerConfig) : List MetricRow → Option (List Bool)
  | [] => some []
  | r :: rs =>
    match rowMask cfg r, buildMask cfg rs with
    | some b, some bs => some (b :: bs)
    | _, _ => none

/-- `df[mask]`: keep the rows whose mask entry is `True`, in order. -/
def applyMask : List MetricRow → List Bool → List MetricRow
  | [], _ => []
  | _ :: _, [] => []
  | r :: rs, b :: bs => if b then r :: applyMask rs bs else applyMask rs bs

/-- Lines 121-135: `df_filtered = df[mask]` with the mask built from the six
threshold clauses.  `none` = the mask computation raised. -/
def filterRows (rows : List MetricRow) (cfg : ScreenerConfig) :
    Option (List MetricRow) :=
  (buildMask cfg rows).map (applyMask rows)

/-- A row is mask-comparable when its verbatim-copied `P/E` and `P/B` entries
are numbers or absent — the only two columns the mask compares that can hold
a non-numeric object.  This is the `MetricRow` numeric-field invariant of the
spec, restricted to the compared columns. -/
def MetricRow.numericOk (r : MetricRow) : Bool :=
  (match r.pe with | some (.other _) => false | _ => true)
  && (match r.pb with | some (.other _) => false | _ => true)

/-- The numeric value of a verbatim-copied entry (defined when `numericOk`). -/
def rawNum (v : Option RawVal) : Option ℚ :=
  v.bind RawVal.toFloat

/-- Spec-side ≤-clause: "rows with unknown are excluded — unknown is
substituted with +∞ for ≤ comparisons", against a finite threshold. -/
def specLe (v : Option ℚ) (t : ℚ) : Bool :=
  match v with
  | none => false
  | some q => decide (q ≤ t)

/-- Spec-side ≥-clause: "unknown substituted with −∞ for ≥ comparisons",
against a finite threshold. -/
def specGe (v : Option ℚ) (t : ℚ) : Bool :=
  match v with
  | none => false
  | some q => decide (t ≤ q)

/-- Spec-side survival predicate: the conjunction of the six threshold
clauses of §4.3 (P/E ≤ maxPE, P/B ≤ maxPB, D/E ≤ maxDE, DivYield ≥ min,
FCFYield ≥ min, MoS ≥ min). -/
def passesAll (cfg : ScreenerConfig) (r : MetricRow) : Bool :=
  specLe (rawNum r.pe) cfg.pe_max
  && specLe (rawNum r.pb) cfg.pb_max
  && specLe r.debtEquity cfg.de_max
  && specGe r.divYieldPct cfg.div_yield_min
  && specGe r.fcfYieldPct cfg.fcf_yield_min
  && specGe r.marginOfSafetyPct cfg.min_mos

/-- Lines 108-115: one iteration of the batch loop.  `fetch` is the Fetcher
oracle (`fetch_yf_info`, total: it catches its own errors).  The `except`
branch appends the stub dict `{'Ticker': tk, 'Price (USD)': None}` — every
other column of that row is absent. -/
def runRow (fetch : String → Info) (est_growth aaa_rate : ℚ)
    (tk : String) : MetricRow :=
  let info := fetch tk
  match compute_metrics tk info info.price est_growth aaa_rate with
  | some row => row
  | none => { ticker := tk }

/-- Outcome of pressing Run (lines 101-151): the empty-ticker error path, or
a completed batch with its raw rows and, if the mask computation did not
raise, the filtered rows (whose presence is what the CSV/Excel download
artifacts are built from). -/
inductive RunOutcome where
  | configError
  | ran (rows : List MetricRow) (filtered : Option (List MetricRow))
  deriving Repr, DecidableEq

/-- Lines 101-116: the run-button handler up to the export buttons. -/
def runScreener (fetch : String → Info) (cfg : ScreenerConfig) : RunOutcome :=
  if cfg.tickers = [] then .configError
  else
    let rows := cfg.tickers.map (runRow fetch cfg.est_growth cfg.aaa_rate)
    .ran rows (filterRows rows cfg)

/-- The raw result rows an outcome produced (the error path produces none). -/
def RunOutcome.rawRows : RunOutcome → List MetricRow
  | .configError => []
  | .ran rows _ => rows

/-- Whether the outcome is the user-visible configuration error. -/
def RunOutcome.isConfigError : RunOutcome → Bool
  | .configError => true
  | .ran _ _ => false

/-- Whether export artifacts (CSV and Excel payloads) were generated: only a
completed run whose filter succeeded reaches the download buttons. -/
def RunOutcome.exportsGenerated : RunOutcome → Bool
  | .configError => false
  | .ran _ filtered => filtered.isSome

/-- A concrete row that passes every default threshold (sample data for
concrete evaluations). -/
def rowA : MetricRow :=
  { ticker := "A", pe := some (.num 10), pb := some (.num 1),
    debtEquity := some 1, divYieldPct := some 5, fcfYieldPct := some 5,
    marginOfSafetyPct := some 30 }

/-- A concrete all-unknown row (fails the default thresholds). -/
def rowB : MetricRow := { ticker := "B" }

/-! ## Helper lemmas (shared by several claim theorems) -/

lemma maskLe_eq_specLe (v : Option ℚ) (t : ℚ) : maskLe v t = specLe v t := by
  cases v <;> simp [maskLe, specLe, fillna, XFloat.le]

lemma maskGe_eq_specGe (v : Option ℚ) (t : ℚ) : maskGe v t = specGe v t := by
  cases v <;> simp [maskGe, specGe, fillna, XFloat.le]

lemma rowMask_eq_passesAll (cfg : ScreenerConfig) (r : MetricRow)
    (h : r.numericOk = true) : rowMask cfg r = some (passesAll cfg r) := by
  unfold MetricRow.numericOk at h
  unfold rowMask passesAll
  rcases hpe : r.pe with _ | (q | b) <;> rcases hpb : r.pb with _ | (q2 | b2) <;>
    simp_all [maskLeRaw, rawNum, RawVal.toFloat, specLe, XFloat.le,
      maskLe_eq_specLe, maskGe_eq_specGe]

lemma buildMask_eq_map (cfg : ScreenerConfig) (rows : List MetricRow)
    (h : ∀ r ∈ rows, r.numericOk = true) :
    buildMask cfg rows = some (rows.map (passesAll cfg)) := by
  induction rows with
  | nil => rfl
  | cons r rs ih =>
    have hr := h r (by simp)
    have hrs := ih fun x hx => h x (by simp [hx])
    simp [buildMask, rowMask_eq_passesAll cfg r hr, hrs]

lemma applyMask_map (p : MetricRow → Bool) (rows : List MetricRow) :
    applyMask rows (rows.map p) = rows.filter p := by
  induction rows with
  | nil => rfl
  | cons r rs ih =>
    by_cases h : p r = true <;> simp [applyMask, List.filter_cons, h, ih]

/-- Under the MetricRow numeric invariant, the mask-based filter is exactly
the order-preserving subsequence of rows satisfying the six-clause
conjunction. -/
lemma filterRows_eq_filter (rows : List MetricRow) (cfg : ScreenerConfig)
    (h : ∀ r ∈ rows, r.numericOk = true) :
    filterRows rows cfg = some (rows.filter (passesAll cfg)) := by
  unfold filterRows
  rw [buildMask_eq_map cfg rows h]
  simp [applyMask_map]

lemma filter_idem (p : MetricRow → Bool) (l : List MetricRow) :
    (l.filter p).filter p = l.filter p := by
  induction l with
  | nil => rfl
  | cons a l ih => by_cases h : p a = true <;> simp [List.filter_cons, h, ih]

/-- Extracting the derived fields out of a successful `compute_metrics`. -/
lemma compute_metrics_fields (t : String) (info : Info) (p : Option ℚ)
    (g a : ℚ) (row : MetricRow)
    (h : compute_metrics t info p g a = some row) :
    row.fcfYieldPct = fcfYieldField info.raw.freeCashflow info.raw.marketCap
    ∧ row.grahamValue = (grahamFields info.raw.trailingEps p g a).1
    ∧ row.marginOfSafetyPct = (grahamFields info.raw.trailingEps p g a).2 := by
  unfold compute_metrics at h
  cases hdy : dividendYieldField info.raw.dividendYield with
  | none => rw [hdy] at h; simp at h
  | some dy =>
    rw [hdy] at h
    have hrow := Option.some.inj h
    subst hrow
    exact ⟨rfl, rfl, rfl⟩

lemma fcfYieldField_eq (fcf mcap : Option RawVal) :
    fcfYieldField fcf mcap =
      match fcf, mcap with
      | some (.num f), some (.num m) => if m = 0 then none else some (f / m * 100)
      | _, _ => none := by
  rcases fcf with _ | (f | bf) <;> rcases mcap with _ | (m | bm) <;>
    simp [fcfYieldField, pyTruthy, RawVal.truthy, RawVal.toFloat, ite_self,
      ne_eq, ite_not]

lemma grahamFields_none (eps : Option RawVal) (p : Option ℚ) (g a : ℚ)
    (h : eps = none ∨ a ≤ 0) : grahamFields eps p g a = (none, none) := by
  rcases h with h | h
  · subst h; rfl
  · rcases eps with _ | e
    · rfl
    · exact if_neg fun hc => absurd hc.2 (not_lt.mpr h)

lemma grahamFields_fst_some (eps : Option RawVal) (p : Option ℚ) (g a : ℚ)
    (h : (grahamFields eps p g a).1 ≠ none) : eps ≠ none ∧ 0 < a := by
  rcases eps with _ | e
  · exact absurd rfl h
  · refine ⟨by simp, ?_⟩
    by_contra hla
    push_neg at hla
    rw [grahamFields_none (some e) p g a (Or.inr hla)] at h
    exact h rfl

/-! ## Claim theorems -/

/-- Claim C1 (code-bug evidence): `compute_metrics` is NOT exception-free for
every raw-fundamentals mapping.  The dividend-yield conversion
`float(dy) * 100` (line 69) sits outside every `try`, so a present but
non-numeric `dividendYield` raises out of the call and no row at all is
produced — the other fields of the row are lost, contradicting the per-field
isolation the spec states. -/
theorem C1_dividend_conversion_raises :
    compute_metrics "AAA" { raw := { dividendYield := some (.other true) } }
      none 5 4 = none := rfl

/-- Claim C2 (counterexample): a row whose Dividend Yield is unknown does NOT
satisfy the ≥-clause under a zero minimum threshold: `fillna(-inf) >= 0` is
false, so the row is dropped even though every other clause passes. -/
theorem C2_counterexample :
    maskGe (none : Option ℚ) 0 = false
    ∧ filterRows
        [{ ticker := "AAA", pe := some (.num 1), pb := some (.num 1),
           debtEquity := some 1, divYieldPct := none,
           fcfYieldPct := some 1, marginOfSafetyPct := some 1 }]
        { div_yield_min := 0, fcf_yield_min := 0, min_mos := 0 } = some [] := by
  exact ⟨rfl, rfl⟩

/-- Claim C2 (amended): for every row whose Dividend Yield (likewise FCF
Yield or Margin of Safety) is unknown and every configured minimum threshold,
of any sign, the row FAILS the corresponding ≥-clause (unknown is substituted
with −∞, and −∞ ≥ t is false for every finite t), so such a row is never
kept by the mask. -/
theorem C2_unknown_fails_min_clause (t : ℚ) :
    maskGe none t = false
    ∧ ∀ (cfg : ScreenerConfig) (r : MetricRow),
        r.divYieldPct = none ∨ r.fcfYieldPct = none ∨ r.marginOfSafetyPct = none →
        rowMask cfg r ≠ some true := by
  refine ⟨rfl, ?_⟩
  intro cfg r hr hmask
  unfold rowMask at hmask
  rcases hpe : maskLeRaw r.pe cfg.pe_max with _ | bpe <;>
    rcases hpb : maskLeRaw r.pb cfg.pb_max with _ | bpb <;>
    rw [hpe, hpb] at hmask <;> simp at hmask
  rcases hr with h1 | h1 | h1 <;>
    simp [h1, maskGe, fillna, XFloat.le] at hmask

/-- Claim C2 (amended, witness): the default all-unknown row is rejected by
the mask under the default thresholds. -/
theorem C2_unknown_fails_min_clause_witness :
    rowMask {} { ticker := "X" } ≠ some true :=
  (C2_unknown_fails_min_clause 0).2 {} { ticker := "X" } (Or.inl rfl)

/-- Claim C3: on rows satisfying the MetricRow numeric-field invariant, the
mask-based filter returns exactly the subsequence of the input, in input
order, of those rows for which all six threshold clauses hold (≤-clauses with
unknown as +∞, ≥-clauses with unknown as −∞), all six conjoined. -/
theorem C3_filter_is_clause_conjunction (rows : List MetricRow)
    (cfg : ScreenerConfig) (h : ∀ r ∈ rows, r.numericOk = true) :
    filterRows rows cfg = some (rows.filter (passesAll cfg)) :=
  filterRows_eq_filter rows cfg h

/-- Claim C3 (witness): concrete evaluation on a passing and a failing row
under the default thresholds. -/
theorem C3_filter_witness :
    filterRows [rowA, rowB] {} = some (List.filter (passesAll {}) [rowA, rowB]) :=
  C3_filter_is_clause_conjunction [rowA, rowB] {} (by decide)

/-- Claim C4: for ticker "AAA" with EPS = 5, growth 5 %, discount rate 4 %
and price 100, `compute_metrics` yields Graham Value exactly 4730 and Margin
of Safety exactly 46300/473 ≈ 97.89 (within 0.01). -/
theorem C4_graham_scenario :
    ((compute_metrics "AAA" { raw := { trailingEps := some (.num 5) } }
        (some 100) 5 4).map fun row => (row.grahamValue, row.marginOfSafetyPct))
      = some (some 4730, some (46300 / 473))
    ∧ |(46300 / 473 : ℚ) - 9789 / 100| < 1 / 100 := by
  constructor
  · have hg : (5 * (8.5 + 2 * ((5 : ℚ) / 100)) * 4.4 / ((4 : ℚ) / 100)) = 4730 := by
      norm_num
    norm_num [compute_metrics, dividendYieldField, grahamFields, hg]
  · rw [abs_sub_lt_iff]
    constructor <;> norm_num

/-- Claim C5: the FCF-Yield field is FreeCashFlow / MarketCap × 100 exactly
when both are present numbers and MarketCap ≠ 0, and unknown in every other
case (absent operand, zero MarketCap, or a non-numeric operand whose
conversion error is caught) — never a division-by-zero fault, never an
infinity. -/
theorem C5_fcf_yield (t : String) (info : Info) (p : Option ℚ) (g a : ℚ)
    (row : MetricRow) (h : compute_metrics t info p g a = some row) :
    row.fcfYieldPct =
      match info.raw.freeCashflow, info.raw.marketCap with
      | some (.num f), some (.num m) => if m = 0 then none else some (f / m * 100)
      | _, _ => none := by
  rw [(compute_metrics_fields t info p g a row h).1, fcfYieldField_eq]

/-- Claim C5 (witness): ticker "BBB" with FreeCashFlow = 1 000 000 and
MarketCap = 0 gets an unknown FCF Yield, with no fault. -/
theorem C5_fcf_yield_witness :
    (compute_metrics "BBB"
        { raw := { freeCashflow := some (.num 1000000), marketCap := some (.num 0) } }
        none 5 4).map MetricRow.fcfYieldPct = some none := by
  cases hrow : compute_metrics "BBB"
      { raw := { freeCashflow := some (.num 1000000), marketCap := some (.num 0) } }
      none 5 4 with
  | none => simp [compute_metrics, dividendYieldField] at hrow
  | some row => simp [C5_fcf_yield "BBB" _ none 5 4 row hrow]

/-- Claim C6: whenever EPS is absent or the discount rate is not strictly
positive, the produced row has unknown Graham Value and unknown Margin of
Safety; conversely a present Graham Value can only arise with EPS present and
a strictly positive discount rate. -/
theorem C6_graham_guard (t : String) (info : Info) (p : Option ℚ) (g a : ℚ)
    (row : MetricRow) (h : compute_metrics t info p g a = some row) :
    (info.raw.trailingEps = none ∨ a ≤ 0 →
      row.grahamValue = none ∧ row.marginOfSafetyPct = none)
    ∧ (row.grahamValue ≠ none → info.raw.trailingEps ≠ none ∧ 0 < a) := by
  obtain ⟨-, hg, hm⟩ := compute_metrics_fields t info p g a row h
  constructor
  · intro hpre
    rw [hg, hm, grahamFields_none info.raw.trailingEps p g a hpre]
    exact ⟨rfl, rfl⟩
  · intro hne
    rw [hg] at hne
    exact grahamFields_fst_some info.raw.trailingEps p g a hne

/-- Claim C6 (witness): with no EPS in the raw mapping, both fields are
unknown. -/
theorem C6_graham_guard_witness :
    ∃ row, compute_metrics "AAA" {} none 5 4 = some row
      ∧ row.grahamValue = none ∧ row.marginOfSafetyPct = none := by
  refine ⟨_, rfl, ?_⟩
  exact (C6_graham_guard "AAA" {} none 5 4 _ rfl).1 (Or.inl rfl)

/-- Claim C7: `filter` is idempotent — filtering an already-filtered list of
invariant-respecting rows with the same thresholds returns it unchanged. -/
theorem C7_filter_idempotent (rows out : List MetricRow) (cfg : ScreenerConfig)
    (h : ∀ r ∈ rows, r.numericOk = true)
    (hout : filterRows rows cfg = some out) :
    filterRows out cfg = some out := by
  rw [filterRows_eq_filter rows cfg h] at hout
  have hoeq := Option.some.inj hout
  subst hoeq
  have hsub : ∀ r ∈ rows.filter (passesAll cfg), r.numericOk = true :=
    fun r hr => h r (List.mem_of_mem_filter hr)
  rw [filterRows_eq_filter _ cfg hsub, filter_idem]

/-- Claim C7 (witness): refiltering the filtered sample list leaves it
unchanged. -/
theorem C7_filter_idempotent_witness : filterRows [rowA] {} = some [rowA] :=
  C7_filter_idempotent [rowA, rowB] [rowA] {} (by decide) (by decide)

/-- Claim C8: the run fails with the user-visible configuration error exactly
when the parsed ticker list is empty — then no rows and no export artifacts
are produced — and a non-empty list yields a completed batch with exactly one
row per input ticker. -/
theorem C8_empty_tickers (fetch : String → Info) (cfg : ScreenerConfig) :
    ((runScreener fetch cfg).isConfigError = true ↔ cfg.tickers = [])
    ∧ (runScreener fetch cfg).rawRows.length
        = (if cfg.tickers = [] then 0 else cfg.tickers.length)
    ∧ (cfg.tickers = [] →
        (runScreener fetch cfg).rawRows = []
        ∧ (runScreener fetch cfg).exportsGenerated = false) := by
  by_cases hcfg : cfg.tickers = [] <;>
    simp [runScreener, hcfg, RunOutcome.isConfigError, RunOutcome.rawRows,
      RunOutcome.exportsGenerated]

/-- Claim C8 (witness): an empty ticker list produces the configuration
error. -/
theorem C8_empty_tickers_witness :
    (runScreener (fun _ => {}) { tickers := [] }).isConfigError = true :=
  (C8_empty_tickers (fun _ => {}) { tickers := [] }).1.mpr rfl

/-- Claim C9: with EPS present, a strictly positive discount rate and a
nonzero Graham Value, a price argument of exactly 0 yields an unknown Margin
of Safety — the `if price and graham` guard treats a zero price like an
absent one. -/
theorem C9_zero_price_no_mos (t : String) (info : Info) (g a : ℚ)
    (row : MetricRow) (e gv : ℚ)
    (heps : info.raw.trailingEps = some (.num e))
    (h : compute_metrics t info (some 0) g a = some row)
    (_hgv : row.grahamValue = some gv) (_hne : gv ≠ 0) :
    row.marginOfSafetyPct = none := by
  obtain ⟨-, hg, hm⟩ := compute_metrics_fields t info (some 0) g a row h
  rw [hm, heps]
  by_cases hguard : a ≠ 0 ∧ a > 0 <;> simp [grahamFields, hguard]

/-- Claim C9 (witness): EPS = 5, growth 5 %, rate 4 %, price 0: Graham Value
is 4730 yet Margin of Safety is unknown. -/
theorem C9_zero_price_no_mos_witness :
    (compute_metrics "AAA" { raw := { trailingEps := some (.num 5) } }
        (some 0) 5 4).map MetricRow.marginOfSafetyPct = some none := by
  cases hrow : compute_metrics "AAA" { raw := { trailingEps := some (.num 5) } }
      (some 0) 5 4 with
  | none => simp [compute_metrics, dividendYieldField] at hrow
  | some row =>
    have hgv : row.grahamValue = some 4730 := by
      rw [(compute_metrics_fields "AAA" _ (some 0) 5 4 row hrow).2.1]
      norm_num [grahamFields]
    simp [C9_zero_price_no_mos "AAA" _ 5 4 row 5 4730 rfl hrow hgv (by norm_num)]

/-- Claim C10: EPS = 0 with a strictly positive discount rate yields Graham
Value present and equal to 0, while Margin of Safety is unknown regardless of
the price (`if price and graham` is falsified by the zero Graham Value). -/
theorem C10_zero_eps (t : String) (info : Info) (p : Option ℚ) (g a : ℚ)
    (row : MetricRow) (heps : info.raw.trailingEps = some (.num 0))
    (ha : 0 < a) (h : compute_metrics t info p g a = some row) :
    row.grahamValue = some 0 ∧ row.marginOfSafetyPct = none := by
  obtain ⟨-, hg, hm⟩ := compute_metrics_fields t info p g a row h
  rw [hg, hm, heps]
  have hguard : a ≠ 0 ∧ a > 0 := ⟨ne_of_gt ha, ha⟩
  rcases p with _ | pp <;>
    simp [grahamFields, hguard, zero_mul, zero_div]

/-- Claim C10 (witness): EPS = 0, rate 4 %, price 100: Graham Value is the
number 0 and Margin of Safety is unknown. -/
theorem C10_zero_eps_witness :
    (compute_metrics "AAA" { raw := { trailingEps := some (.num 0) } }
        (some 100) 5 4).map
      (fun row => (row.grahamValue, row.marginOfSafetyPct)) = some (some 0, none) := by
  cases hrow : compute_metrics "AAA" { raw := { trailingEps := some (.num 0) } }
      (some 100) 5 4 with
  | none => simp [compute_metrics, dividendYieldField] at hrow
  | some row =>
    obtain ⟨hg, hm⟩ :=
      C10_zero_eps "AAA" _ (some 100) 5 4 row rfl (by norm_num) hrow
    simp [hg, hm]

end Screener
